import Mathlib

/-!
Verification of the CocosNet evaluation glue code
(demos/python_demos/cocosnet_demo/preprocessing.py and
tools/accuracy_checker/.../cocosnet_evaluator.py).

The Python code is shallowly embedded: numpy arrays of fixed rank 4 become a
structure carrying the four dimensions and a total data function; fallible
numpy operations (indexed writes, concatenation) return Option, with none
standing for the raised IndexError/ValueError; Python lists become Lean
lists; dictionaries become functions or association lists.  All numbers that
the claims reason about are exact (Int / Rat), matching the integer label
grids and the exactly representable constants (127.5) of the source.
-/

/-- A rank-4 numpy array: four dimensions plus a total data function.
Reads outside the dimensions are never performed by the embedded code. -/
structure Tensor4 where
  d0 : Nat
  d1 : Nat
  d2 : Nat
  d3 : Nat
  data : Nat → Nat → Nat → Nat → Int

/-- The array allocated by scatter, from the source line
out = np.zeros((1, 151, 256, 256)).  (The later astype(np.int) cast is the
identity in this integer model.) -/
def zeros4 : Tensor4 :=
  { d0 := 1, d1 := 151, d2 := 256, d3 := 256, data := fun _ _ _ _ => 0 }

/-- Semantics of numpy integer indexing on one axis of size n: an index v
with 0 <= v < n selects cell v; a negative v with -n <= v selects cell
v + n (Python wraparound); anything else raises IndexError (none). -/
def npIndex (n : Nat) (v : Int) : Option Nat :=
  if 0 ≤ v ∧ v < (n : Int) then some v.toNat
  else if -(n : Int) ≤ v ∧ v < 0 then some (v + n).toNat
  else none

/-- One loop-body write of scatter, from the source line
out[0][source[i][j]][i][j] = 1: each of the four indices is resolved by
numpy indexing and the selected cell is set to 1. -/
def setOne (t : Tensor4) (v : Int) (i j : Nat) : Option Tensor4 :=
  (npIndex t.d0 0).bind fun a0 =>
  (npIndex t.d1 v).bind fun b0 =>
  (npIndex t.d2 (Int.ofNat i)).bind fun c0 =>
  (npIndex t.d3 (Int.ofNat j)).map fun e0 =>
    { t with data := fun a b c d =>
        if a = a0 ∧ b = b0 ∧ c = c0 ∧ d = e0 then 1 else t.data a b c d }

/-- The row-major iteration order of the two nested loops
for i in range(h): for j in range(w). -/
def indexPairs (h w : Nat) : List (Nat × Nat) :=
  (List.range h).flatMap fun i => (List.range w).map fun j => (i, j)

/-- Executes the writes of the scatter loop in order; the first raised
IndexError aborts the whole call (none). -/
def scatterAux (src : Nat → Nat → Int) : List (Nat × Nat) → Tensor4 → Option Tensor4
  | [], t => some t
  | (i, j) :: rest, t =>
    match setOne t (src i j) i j with
    | some t1 => scatterAux src rest t1
    | none => none

/-- scatter(source) from preprocessing.py: allocate zeros of shape
(1, 151, 256, 256) and write a 1 at channel source[i][j] for every position
(i, j) of the h-by-w source grid. -/
def scatter (h w : Nat) (src : Nat → Nat → Int) : Option Tensor4 :=
  scatterAux src (indexPairs h w) zeros4

/-- cv2.resize(mask, dsize=(256, 256), interpolation=cv2.INTER_NEAREST) on an
h-by-w grid: output cell (i, j) reads source cell
(min(floor(i*h/256), h-1), min(floor(j*w/256), w-1)); the arithmetic is exact
because h/256 and w/256 are exactly representable ratios scaled by indices
below 2^53. -/
def resizeNearest (h w : Nat) (src : Nat → Nat → Int) : Nat → Nat → Int :=
  fun i j => src (min (i * h / 256) (h - 1)) (min (j * w / 256) (w - 1))

/-- preprocess_with_semantics from preprocessing.py: nearest-neighbor resize
to 256x256 followed by the scatter one-hot encoding. -/
def preprocess_with_semantics (h w : Nat) (src : Nat → Nat → Int) : Option Tensor4 :=
  scatter 256 256 (resizeNearest h w src)

/-- normalization(x, mean, scale) from preprocessing.py:
np.subtract then np.divide, element-wise over exact rationals. -/
def normalization (x mean scale : ℚ) : ℚ :=
  (x - mean) / scale

/-- Modelled from the spec: the inverse affine map y * 127.5 + 127.5 named by
the invertibility property; it does not appear in the source. -/
def denormalize (y : ℚ) : ℚ :=
  y * 127.5 + 127.5

/-- np.concatenate((t1, t2), axis=1) on rank-4 arrays: every dimension other
than axis 1 must agree, otherwise numpy raises a ValueError (none); on
success the channel counts add and the data is t1 followed by t2 along
axis 1. -/
def npConcatAxis1 (t1 t2 : Tensor4) : Option Tensor4 :=
  if t1.d0 = t2.d0 ∧ t1.d2 = t2.d2 ∧ t1.d3 = t2.d3 then
    some { d0 := t1.d0, d1 := t1.d1 + t2.d1, d2 := t1.d2, d3 := t1.d3,
           data := fun a b c d =>
             if b < t1.d1 then t1.data a b c d else t2.data a (b - t1.d1) c d }
  else none

/-- CocosnetModel from cocosnet_evaluator.py, with its two collaborating
networks abstracted as functions: corrFit is correspondence.fit_to_input
(InputFeeder.fill_inputs, returning a list of named-tensor maps), corrInfer
is correspondence.predict (exec_network.infer), the two keys are
key_of_warped_reference and key_of_input_semantics, and genInfer is
generator.predict (fit_to_input plus infer).  I is the type of one raw
input sample, P the type of one generator prediction. -/
structure CocosnetModelM (I P : Type) where
  corrFit : I → List (String → Tensor4)
  corrInfer : (String → Tensor4) → (String → Tensor4)
  keyOfWarpedReference : String
  keyOfInputSemantics : String
  genInfer : Tensor4 → P

/-- The body of the loop in CocosnetModel.predict (lines 381-386):
inp = correspondence.fit_to_input(inp); corr_out =
correspondence.predict(inp[0]); gen_input = np.concatenate((corr_out[warp],
inp[0][semantics]), axis=1); result = generator.predict(gen_input).  A
failing list access inp[0] (IndexError) or a failing concatenation
(ValueError) raises, which is none here. -/
def CocosnetModelM.predictStep {I P : Type} (m : CocosnetModelM I P) (inp : I) : Option P :=
  match (m.corrFit inp).head? with
  | none => none
  | some filled =>
    match npConcatAxis1 (m.corrInfer filled m.keyOfWarpedReference)
        (filled m.keyOfInputSemantics) with
    | none => none
    | some genInput => some (m.genInfer genInput)

/-- The loop of CocosnetModel.predict: results = []; for inp in inputs:
... results.append(result); an exception anywhere aborts the whole call. -/
def CocosnetModelM.predictAux {I P : Type} (m : CocosnetModelM I P) :
    List I → List P → Option (List P)
  | [], acc => some acc
  | inp :: rest, acc =>
    match m.predictStep inp with
    | none => none
    | some r => m.predictAux rest (acc ++ [r])

/-- CocosnetModel.predict(inputs) from cocosnet_evaluator.py (lines 378-387). -/
def CocosnetModelM.predict {I P : Type} (m : CocosnetModelM I P) (inputs : List I) :
    Option (List P) :=
  m.predictAux inputs []

/-- The inner loop of CocosnetEvaluator._get_batch_input (lines 110-117):
the preprocessor defaults to the mask preprocessor and is replaced by the
image preprocessor when the data index is odd (if index_of_input % 2).
The counter k is the enumerate index. -/
def applyPreprocessors {α : Type} (pm pi : α → α) : Nat → List α → List α
  | _, [] => []
  | k, x :: rest =>
    (if k % 2 = 1 then pi x else pm x) :: applyPreprocessors pm pi (k + 1) rest

/-- The outer loop of CocosnetEvaluator._get_batch_input over the samples of
the batch: each sample's data list is rewritten in place by the inner loop,
starting the enumerate counter at 0. -/
def getBatchInputData {α : Type} (pm pi : α → α) (batch : List (List α)) : List (List α) :=
  batch.map fun sample => applyPreprocessors pm pi 0 sample

/-- A Python object reference: an identity (never changed by mutation) plus
the object's current state. -/
structure Collab (σ : Type) where
  objId : Nat
  state : σ

/-- The fields of CocosnetEvaluator: the eight collaborators stored by
__init__ and the three accumulator lists. -/
structure CocosnetEvaluatorState
    (SL SR SPM SPI SPP SD SME SMO Ann Pred Met : Type) where
  launcher : Collab SL
  reader : Collab SR
  preprocessorMask : Collab SPM
  preprocessorImage : Collab SPI
  postprocessor : Collab SPP
  dataset : Collab SD
  metricExecutor : Collab SME
  model : Collab SMO
  annotationsAcc : List Ann
  predictionsAcc : List Pred
  metricsResultsAcc : List Met

/-- CocosnetEvaluator.reset (lines 215-224): metric_executor.reset() mutates
the metric executor in place (metricReset on its state, same objId); the
three accumulator lists are deleted and rebound to fresh empty lists;
dataset.reset(postprocessor.has_processors) and reader.reset() likewise
mutate their objects in place.  The remaining collaborators are untouched. -/
def CocosnetEvaluatorState.reset
    {SL SR SPM SPI SPP SD SME SMO Ann Pred Met : Type}
    (metricReset : SME → SME) (datasetReset : SD → Bool → SD)
    (readerReset : SR → SR) (hasProcessors : SPP → Bool)
    (e : CocosnetEvaluatorState SL SR SPM SPI SPP SD SME SMO Ann Pred Met) :
    CocosnetEvaluatorState SL SR SPM SPI SPP SD SME SMO Ann Pred Met :=
  { e with
    metricExecutor := ⟨e.metricExecutor.objId, metricReset e.metricExecutor.state⟩
    annotationsAcc := []
    predictionsAcc := []
    metricsResultsAcc := []
    dataset := ⟨e.dataset.objId,
      datasetReset e.dataset.state (hasProcessors e.postprocessor.state)⟩
    reader := ⟨e.reader.objId, readerReset e.reader.state⟩ }

/-- The metrics_results property (lines 198-203), with explicit Python
recursion fuel: the guard reads self.metrics_results, i.e. the property
itself, so evaluating the guard re-enters the property; exhausted fuel is
the RecursionError (none), which propagates.  The remaining body (call
compute_metrics when the guard value is falsy, then return a deepcopy of
self._metrics_results) is kept, although it is unreachable. -/
def metricsResultsProperty {Ev Met : Type}
    (compute : Ev → Ev) (metricsField : Ev → List Met) :
    Nat → Ev → Option (List Met)
  | 0, _ => none
  | n + 1, e =>
    match metricsResultsProperty compute metricsField n e with
    | none => none
    | some guardValue =>
      some (metricsField (if guardValue.isEmpty then compute e else e))

/-- The shapes a YAML/JSON configuration value can take. -/
inductive ConfigValue where
  | str (s : String)
  | dict (entries : List (String × ConfigValue))
  | num (n : Int)
  | listVal (items : List ConfigValue)
  | boolean (b : Bool)
  | null

/-- Python dict[key] lookup over the association-list model. -/
def dictGet : List (String × ConfigValue) → String → Option ConfigValue
  | [], _ => none
  | (k, v) :: rest, key => if k = key then some v else dictGet rest key

/-- Outcome of the reader-configuration dispatch in from_configs. -/
inductive ReaderResolution where
  | resolved (readerType : ConfigValue) (readerConfig : Option ConfigValue)
  | keyError (key : String)
  | configError (msg : String)

/-- The reader-configuration dispatch of CocosnetEvaluator.from_configs
(lines 61-67): a string is the reader type with config None; a dict supplies
the type under its required key (a missing key is Python's KeyError, not a
ConfigError); anything else raises
ConfigError('reader should be dict or string'). -/
def resolveReaderConfig (c : ConfigValue) : ReaderResolution :=
  match c with
  | .str s => .resolved (.str s) none
  | .dict entries =>
    match dictGet entries "type" with
    | some t => .resolved t (some (.dict entries))
    | none => .keyError "type"
  | _ => .configError "reader should be dict or string"

/-- True on the Python test '.xml' in weights. -/
def containsXml : List Char → Bool
  | '.' :: 'x' :: 'm' :: 'l' :: _ => true
  | _ :: rest => containsXml rest
  | [] => false

/-- weights.replace('.xml', '.bin'): the left-to-right, non-overlapping
scan of Python str.replace, specialized to the two literals of the source. -/
def replaceXmlBin : List Char → List Char
  | '.' :: 'x' :: 'm' :: 'l' :: rest => '.' :: 'b' :: 'i' :: 'n' :: replaceXmlBin rest
  | c :: rest => c :: replaceXmlBin rest
  | [] => []

/-- automatic_model_search (lines 231-236): the weights path defaults to the
model path (network_info.get('weights', model)) and every '.xml' occurrence
in it is replaced by '.bin' when one is present.  Paths are modelled as
character lists; the filesystem existence check of get_path and the
Path(...) normalization are identity on the path string here. -/
def automatic_model_search (model : List Char) (weightsEntry : Option (List Char)) :
    List Char × List Char :=
  let weights := weightsEntry.getD model
  let weights2 := if containsXml weights then replaceXmlBin weights else weights
  (model, weights2)


/-- True exactly on string-shaped configuration values. -/
def ConfigValue.isStr : ConfigValue → Bool
  | .str _ => true
  | _ => false

/-- True exactly on dict-shaped configuration values. -/
def ConfigValue.isDict : ConfigValue → Bool
  | .dict _ => true
  | _ => false

theorem npIndex_of_nonneg_lt {n : Nat} {v : Int} (h0 : 0 ≤ v) (h1 : v < (n : Int)) :
    npIndex n v = some v.toNat := by
  rw [npIndex, if_pos ⟨h0, h1⟩]

theorem npIndex_ofNat {n i : Nat} (h : i < n) : npIndex n (Int.ofNat i) = some i := by
  rw [Int.ofNat_eq_coe, npIndex_of_nonneg_lt (by omega) (by omega)]
  simp

theorem npIndex_none {n : Nat} {v : Int} (h : (n : Int) ≤ v ∨ v < -(n : Int)) :
    npIndex n v = none := by
  rw [npIndex, if_neg (by omega), if_neg (by omega)]

theorem setOne_some {t : Tensor4} {v : Int} {i j : Nat}
    (hd0 : 0 < t.d0) (hv0 : 0 ≤ v) (hv1 : v < (t.d1 : Int))
    (hi : i < t.d2) (hj : j < t.d3) :
    setOne t v i j = some
      { t with data := fun a b c d =>
          if a = 0 ∧ b = v.toNat ∧ c = i ∧ d = j then 1 else t.data a b c d } := by
  rw [setOne, npIndex_of_nonneg_lt le_rfl (by omega),
      npIndex_of_nonneg_lt hv0 hv1, npIndex_ofNat hi, npIndex_ofNat hj]
  simp

theorem setOne_none_of_bad {t : Tensor4} {v : Int} {i j : Nat}
    (h : (t.d1 : Int) ≤ v ∨ v < -(t.d1 : Int)) :
    setOne t v i j = none := by
  rw [setOne, npIndex_none h]
  cases npIndex t.d0 0 <;> rfl

theorem setOne_dims {t t1 : Tensor4} {v : Int} {i j : Nat}
    (h : setOne t v i j = some t1) :
    t1.d0 = t.d0 ∧ t1.d1 = t.d1 ∧ t1.d2 = t.d2 ∧ t1.d3 = t.d3 := by
  rw [setOne] at h
  simp only [Option.bind_eq_some, Option.map_eq_some'] at h
  obtain ⟨a0, -, b0, -, c0, -, e0, -, ht⟩ := h
  subst ht
  exact ⟨rfl, rfl, rfl, rfl⟩

/-- Claim C3: the normalization step computes (x - 127.5) / 127.5
element-wise, so every byte value x in [0, 255] lands in [-1, 1], and the
inverse affine map y * 127.5 + 127.5 recovers x exactly over the rationals. -/
theorem claim_C3 (x : ℚ) (h0 : 0 ≤ x) (h255 : x ≤ 255) :
    -1 ≤ normalization x 127.5 127.5 ∧ normalization x 127.5 127.5 ≤ 1 ∧
      denormalize (normalization x 127.5 127.5) = x := by
  unfold normalization denormalize
  refine ⟨?_, ?_, ?_⟩
  · rw [le_div_iff₀ (by norm_num)]
    linarith
  · rw [div_le_one (by norm_num)]
    linarith
  · field_simp

/-- Witness for claim C3 at the concrete byte value 64. -/
theorem claim_C3_witness :
    (0 : ℚ) ≤ 64 ∧ (64 : ℚ) ≤ 255 ∧
      (-1 ≤ normalization 64 127.5 127.5 ∧ normalization 64 127.5 127.5 ≤ 1 ∧
        denormalize (normalization 64 127.5 127.5) = 64) :=
  ⟨by norm_num, by norm_num, claim_C3 64 (by norm_num) (by norm_num)⟩

/-- Claim C7: after CocosnetEvaluator.reset() the accumulated annotations,
predictions and metrics results are empty lists, while the launcher, reader,
preprocessors, postprocessor, dataset, metric executor and model are the same
objects as before the call (same identity; three of them are mutated in
place, none is reconstructed). -/
theorem claim_C7 {SL SR SPM SPI SPP SD SME SMO Ann Pred Met : Type}
    (metricReset : SME → SME) (datasetReset : SD → Bool → SD)
    (readerReset : SR → SR) (hasProcessors : SPP → Bool)
    (e : CocosnetEvaluatorState SL SR SPM SPI SPP SD SME SMO Ann Pred Met) :
    (e.reset metricReset datasetReset readerReset hasProcessors).annotationsAcc = [] ∧
    (e.reset metricReset datasetReset readerReset hasProcessors).predictionsAcc = [] ∧
    (e.reset metricReset datasetReset readerReset hasProcessors).metricsResultsAcc = [] ∧
    (e.reset metricReset datasetReset readerReset hasProcessors).launcher = e.launcher ∧
    (e.reset metricReset datasetReset readerReset hasProcessors).reader.objId = e.reader.objId ∧
    (e.reset metricReset datasetReset readerReset hasProcessors).preprocessorMask =
      e.preprocessorMask ∧
    (e.reset metricReset datasetReset readerReset hasProcessors).preprocessorImage =
      e.preprocessorImage ∧
    (e.reset metricReset datasetReset readerReset hasProcessors).postprocessor =
      e.postprocessor ∧
    (e.reset metricReset datasetReset readerReset hasProcessors).dataset.objId =
      e.dataset.objId ∧
    (e.reset metricReset datasetReset readerReset hasProcessors).metricExecutor.objId =
      e.metricExecutor.objId ∧
    (e.reset metricReset datasetReset readerReset hasProcessors).model = e.model :=
  ⟨rfl, rfl, rfl, rfl, rfl, rfl, rfl, rfl, rfl, rfl, rfl⟩

/-- Claim C8: the metrics_results property guards on self.metrics_results,
i.e. on itself, so for every evaluator state and every recursion budget the
property re-enters itself until the budget is exhausted and never returns a
value: it always ends in the recursion-limit error. -/
theorem claim_C8 {Ev Met : Type} (compute : Ev → Ev) (metricsField : Ev → List Met)
    (n : Nat) (e : Ev) :
    metricsResultsProperty compute metricsField n e = none := by
  induction n with
  | zero => rfl
  | succ n ih => simp [metricsResultsProperty, ih]

/-- Claim C9: the reader-configuration dispatch of from_configs raises
ConfigError('reader should be dict or string') exactly when the configured
value is neither a string nor a dict. -/
theorem claim_C9 (c : ConfigValue) :
    resolveReaderConfig c = .configError "reader should be dict or string" ↔
      c.isStr = false ∧ c.isDict = false := by
  cases c with
  | str s => simp [resolveReaderConfig, ConfigValue.isStr, ConfigValue.isDict]
  | dict entries =>
    cases hd : dictGet entries "type" <;>
      simp [resolveReaderConfig, hd, ConfigValue.isStr, ConfigValue.isDict]
  | num n => simp [resolveReaderConfig, ConfigValue.isStr, ConfigValue.isDict]
  | listVal items => simp [resolveReaderConfig, ConfigValue.isStr, ConfigValue.isDict]
  | boolean b => simp [resolveReaderConfig, ConfigValue.isStr, ConfigValue.isDict]
  | null => simp [resolveReaderConfig, ConfigValue.isStr, ConfigValue.isDict]

theorem applyPreprocessors_length {α : Type} (pm pi : α → α) (k : Nat) (l : List α) :
    (applyPreprocessors pm pi k l).length = l.length := by
  induction l generalizing k with
  | nil => rfl
  | cons x rest ih => simp [applyPreprocessors, ih]

theorem applyPreprocessors_getElem {α : Type} (pm pi : α → α) (k : Nat) (l : List α)
    (i : Nat) (hi : i < l.length) (hi2 : i < (applyPreprocessors pm pi k l).length) :
    (applyPreprocessors pm pi k l)[i] =
      if (k + i) % 2 = 1 then pi l[i] else pm l[i] := by
  induction l generalizing k i with
  | nil => simp at hi
  | cons x rest ih =>
    cases i with
    | zero => simp [applyPreprocessors]
    | succ i =>
      have hi3 : i < rest.length := by simpa using hi
      have hi4 : i < (applyPreprocessors pm pi (k + 1) rest).length := by
        rw [applyPreprocessors_length]; exact hi3
      simp only [applyPreprocessors, List.getElem_cons_succ]
      rw [ih (k + 1) i hi3 hi4]
      have harith : k + 1 + i = k + (i + 1) := by omega
      rw [harith]

/-- Claim C6: when the Evaluator builds a batch input, each sample's data
list is rewritten element by element, the element at an even index through
the mask preprocessor and the element at an odd index through the image
preprocessor; both the batch length and every sample's data length are
preserved, so no data channel is processed twice or skipped. -/
theorem claim_C6 {α : Type} (pm pi : α → α) (batch : List (List α)) :
    (getBatchInputData pm pi batch).length = batch.length ∧
    ∀ (s : Nat) (hs : s < batch.length) (hs2 : s < (getBatchInputData pm pi batch).length),
      ((getBatchInputData pm pi batch)[s]).length = (batch[s]).length ∧
      ∀ (i : Nat) (hi : i < (batch[s]).length)
        (hi2 : i < ((getBatchInputData pm pi batch)[s]).length),
        ((getBatchInputData pm pi batch)[s])[i] =
          if i % 2 = 1 then pi ((batch[s])[i]) else pm ((batch[s])[i]) := by
  refine ⟨by simp [getBatchInputData], ?_⟩
  intro s hs hs2
  refine ⟨by simp [getBatchInputData, applyPreprocessors_length], ?_⟩
  intro i hi hi2
  have hi3 : i < (applyPreprocessors pm pi 0 (batch[s])).length := by
    rw [applyPreprocessors_length]; exact hi
  simp only [getBatchInputData, List.getElem_map]
  rw [applyPreprocessors_getElem pm pi 0 (batch[s]) i hi hi3]
  simp

/-- Witness for claim C6 on the concrete batch [[10, 20, 30]] with mask
preprocessor (+1) and image preprocessor (*2). -/
theorem claim_C6_witness :
    (0 : Nat) < [[10, 20, 30]].length ∧ (1 : Nat) < [(10 : Nat), 20, 30].length ∧
    (getBatchInputData (· + 1) (· * 2) [[(10 : Nat), 20, 30]]).length = 1 ∧
    ((getBatchInputData (· + 1) (· * 2) [[(10 : Nat), 20, 30]]).get ⟨0, by decide⟩).get
        ⟨1, by decide⟩ = 40 := by
  refine ⟨by decide, by decide, (claim_C6 (· + 1) (· * 2) [[(10 : Nat), 20, 30]]).1, ?_⟩
  have h := ((claim_C6 (· + 1) (· * 2) [[(10 : Nat), 20, 30]]).2 0 (by decide) (by decide)).2
    1 (by decide) (by decide)
  simpa using h

/-- The per-sample results of the loop of CocosnetModel.predict, collected
front to back (proof-side restatement of the loop, compared with the
accumulator form below). -/
def stepsOf {I P : Type} (m : CocosnetModelM I P) : List I → Option (List P)
  | [] => some []
  | inp :: rest =>
    match m.predictStep inp, stepsOf m rest with
    | some r, some rs => some (r :: rs)
    | _, _ => none

theorem predictAux_eq_stepsOf {I P : Type} (m : CocosnetModelM I P) :
    ∀ (inputs : List I) (acc : List P),
      m.predictAux inputs acc = (stepsOf m inputs).map (fun l => acc ++ l) := by
  intro inputs
  induction inputs with
  | nil => intro acc; simp [CocosnetModelM.predictAux, stepsOf]
  | cons inp rest ih =>
    intro acc
    cases hstep : m.predictStep inp with
    | none => simp [CocosnetModelM.predictAux, stepsOf, hstep]
    | some r =>
      cases hrest : stepsOf m rest with
      | none => simp [CocosnetModelM.predictAux, stepsOf, hstep, hrest, ih]
      | some rs => simp [CocosnetModelM.predictAux, stepsOf, hstep, hrest, ih]

theorem stepsOf_ok {I P : Type} (m : CocosnetModelM I P) :
    ∀ (inputs : List I),
      (∀ inp ∈ inputs, (m.predictStep inp).isSome = true) →
      ∃ l, stepsOf m inputs = some l ∧ l.length = inputs.length ∧
        ∀ (i : Nat) (hi : i < inputs.length) (hl : i < l.length),
          m.predictStep (inputs[i]) = some (l[i]) := by
  intro inputs
  induction inputs with
  | nil =>
    intro _
    exact ⟨[], rfl, rfl, by intro i hi; simp at hi⟩
  | cons inp rest ih =>
    intro hok
    obtain ⟨r, hr⟩ := Option.isSome_iff_exists.mp (hok inp (List.mem_cons_self _ _))
    obtain ⟨l, hl, hlen, hidx⟩ := ih (fun x hx => hok x (List.mem_cons_of_mem _ hx))
    refine ⟨r :: l, by simp [stepsOf, hr, hl], by simp [hlen], ?_⟩
    intro i hi hl2
    cases i with
    | zero => simpa using hr
    | succ i =>
      have hi2 : i < rest.length := by simpa using hi
      have hl3 : i < l.length := by simpa using hl2
      simpa using hidx i hi2 hl3

/-- Claim C2: for every input list of N samples for which every per-sample
stage succeeds, CocosnetModel.predict returns exactly N predictions in input
order, the i-th obtained by running the correspondence stage on the i-th
sample, concatenating its warped-reference output with the input-semantics
tensor along axis 1, and running the generator stage on that concatenation;
the loop appends strictly sequentially with no branching. -/
theorem claim_C2 {I P : Type} (m : CocosnetModelM I P) (inputs : List I)
    (hok : ∀ inp ∈ inputs, (m.predictStep inp).isSome = true) :
    ∃ l, m.predict inputs = some l ∧ l.length = inputs.length ∧
      ∀ (i : Nat) (hi : i < inputs.length) (hl : i < l.length)
        (filled : String → Tensor4) (genInput : Tensor4),
        (m.corrFit (inputs[i])).head? = some filled →
        npConcatAxis1 (m.corrInfer filled m.keyOfWarpedReference)
            (filled m.keyOfInputSemantics) = some genInput →
        l[i] = m.genInfer genInput := by
  obtain ⟨l, hsteps, hlen, hidx⟩ := stepsOf_ok m inputs hok
  refine ⟨l, ?_, hlen, ?_⟩
  · rw [CocosnetModelM.predict, predictAux_eq_stepsOf, hsteps]
    simp
  · intro i hi hl filled genInput hf hg
    have h1 := hidx i hi hl
    rw [CocosnetModelM.predictStep, hf] at h1
    simp only [] at h1
    rw [hg] at h1
    simpa using h1.symm

/-- Concrete model used by the witnesses: the correspondence stage returns a
single named tensor whose channel count is the sample number, inference is
the identity, and the generator reports the channel count of its input. -/
def mWitC2 : CocosnetModelM Nat Nat where
  corrFit := fun n => [fun _ => { d0 := 1, d1 := n, d2 := 8, d3 := 8, data := fun _ _ _ _ => 0 }]
  corrInfer := fun f => f
  keyOfWarpedReference := "warp_out"
  keyOfInputSemantics := "input_semantics"
  genInfer := fun t => t.d1

/-- Witness for claim C2 on the two-sample batch [3, 5]. -/
theorem claim_C2_witness :
    (∀ inp ∈ [3, 5], (mWitC2.predictStep inp).isSome = true) ∧
    (∃ l, mWitC2.predict [3, 5] = some l ∧ l.length = [3, 5].length ∧
      ∀ (i : Nat) (hi : i < [3, 5].length) (hl : i < l.length)
        (filled : String → Tensor4) (genInput : Tensor4),
        (mWitC2.corrFit (([3, 5])[i])).head? = some filled →
        npConcatAxis1 (mWitC2.corrInfer filled mWitC2.keyOfWarpedReference)
            (filled mWitC2.keyOfInputSemantics) = some genInput →
        l[i] = mWitC2.genInfer genInput) :=
  ⟨fun inp h => by
    rcases List.mem_cons.mp h with rfl | h2
    · rfl
    · rcases List.mem_cons.mp h2 with rfl | h3
      · rfl
      · simp at h3,
   claim_C2 mWitC2 [3, 5] (fun inp h => by
    rcases List.mem_cons.mp h with rfl | h2
    · rfl
    · rcases List.mem_cons.mp h2 with rfl | h3
      · rfl
      · simp at h3)⟩

theorem predictAux_abort {I P : Type} (m : CocosnetModelM I P) :
    ∀ (inputs : List I) (acc : List P) (inp : I),
      inp ∈ inputs → m.predictStep inp = none → m.predictAux inputs acc = none := by
  intro inputs
  induction inputs with
  | nil => intro acc inp hmem; simp at hmem
  | cons x rest ih =>
    intro acc inp hmem hnone
    rcases List.mem_cons.mp hmem with rfl | hmem2
    · simp [CocosnetModelM.predictAux, hnone]
    · cases hx : m.predictStep x with
      | none => simp [CocosnetModelM.predictAux, hx]
      | some r =>
        simp only [CocosnetModelM.predictAux, hx]
        exact ih (acc ++ [r]) inp hmem2 hnone

/-- Claim C4 (amended): in CocosnetModel.predict the concatenation of the
warped-reference tensor and the input-semantics tensor is along the channel
axis (axis 1); channel counts need not match (the output channel count is
their sum), while a mismatch in the batch or spatial dimensions makes the
concatenation fail deterministically with a shape error, and a failing step
for any sample aborts the whole batch. -/
theorem claim_C4 :
    (∀ t1 t2 : Tensor4, (t1.d0 ≠ t2.d0 ∨ t1.d2 ≠ t2.d2 ∨ t1.d3 ≠ t2.d3) →
      npConcatAxis1 t1 t2 = none) ∧
    (∀ t1 t2 t : Tensor4, npConcatAxis1 t1 t2 = some t →
      t.d1 = t1.d1 + t2.d1 ∧ t.d0 = t1.d0 ∧ t.d2 = t1.d2 ∧ t.d3 = t1.d3) ∧
    (∀ (I P : Type) (m : CocosnetModelM I P) (inputs : List I) (inp : I),
      inp ∈ inputs → m.predictStep inp = none → m.predict inputs = none) := by
  refine ⟨?_, ?_, ?_⟩
  · intro t1 t2 hne
    rw [npConcatAxis1, if_neg]
    tauto
  · intro t1 t2 t hsome
    rw [npConcatAxis1] at hsome
    split at hsome
    · rw [Option.some_inj] at hsome
      subst hsome
      exact ⟨rfl, rfl, rfl, rfl⟩
    · exact absurd hsome (by simp)
  · intro I P m inputs inp hmem hnone
    exact predictAux_abort m inputs [] inp hmem hnone

/-- Counterexample to claim C4 as stated: two tensors with mismatched
channel counts (2 versus 3) but matching batch and spatial dimensions
concatenate without any error, producing 5 output channels. -/
theorem claim_C4_counterexample :
    (Tensor4.mk 1 2 4 4 fun _ _ _ _ => 0).d1 ≠ (Tensor4.mk 1 3 4 4 fun _ _ _ _ => 0).d1 ∧
    (npConcatAxis1 (Tensor4.mk 1 2 4 4 fun _ _ _ _ => 0)
        (Tensor4.mk 1 3 4 4 fun _ _ _ _ => 0)).map Tensor4.d1 = some 5 :=
  ⟨by decide, rfl⟩

/-- Concrete model used by the claim C4 witness: the correspondence stage
returns an empty filled-inputs list, so inp[0] raises for every sample. -/
def mAbortC4 : CocosnetModelM Nat Nat where
  corrFit := fun _ => []
  corrInfer := fun f => f
  keyOfWarpedReference := "warp_out"
  keyOfInputSemantics := "input_semantics"
  genInfer := fun _ => 0

/-- Witness for claim C4: a spatial mismatch (height 4 versus 5) makes the
concatenation fail, and a failing step on the only sample of a batch makes
the whole predict call fail. -/
theorem claim_C4_witness :
    ((Tensor4.mk 1 2 4 4 fun _ _ _ _ => 0).d0 ≠ (Tensor4.mk 1 2 5 4 fun _ _ _ _ => 0).d0 ∨
      (Tensor4.mk 1 2 4 4 fun _ _ _ _ => 0).d2 ≠ (Tensor4.mk 1 2 5 4 fun _ _ _ _ => 0).d2 ∨
      (Tensor4.mk 1 2 4 4 fun _ _ _ _ => 0).d3 ≠ (Tensor4.mk 1 2 5 4 fun _ _ _ _ => 0).d3) ∧
    npConcatAxis1 (Tensor4.mk 1 2 4 4 fun _ _ _ _ => 0)
      (Tensor4.mk 1 2 5 4 fun _ _ _ _ => 0) = none ∧
    (0 : Nat) ∈ [0] ∧ mAbortC4.predictStep 0 = none ∧ mAbortC4.predict [0] = none :=
  ⟨Or.inr (Or.inl (by decide)),
   claim_C4.1 _ _ (Or.inr (Or.inl (by decide))),
   by decide, rfl,
   claim_C4.2.2 Nat Nat mAbortC4 [0] 0 (by decide) rfl⟩

theorem replaceXmlBin_of_not_contains :
    ∀ l : List Char, containsXml l = false → replaceXmlBin l = l := by
  intro l
  induction l using replaceXmlBin.induct with
  | case1 rest ih =>
    intro h
    simp [containsXml] at h
  | case2 c rest hne ih =>
    intro h
    have hrest : containsXml rest = false := by
      rw [containsXml.eq_def] at h
      split at h
      · simp at h
      · rename_i heq
        injection heq with hc hr
        subst hr
        exact h
      · rename_i heq
        exact absurd heq (List.cons_ne_nil c rest)
    rw [replaceXmlBin.eq_def]
    split
    · rename_i tail heq
      injection heq with hc hr
      exact (hne tail hc hr).elim
    · rename_i heq
      injection heq with hc hr
      subst hc
      subst hr
      rw [ih hrest]
    · rename_i heq
      exact absurd heq (List.cons_ne_nil c rest)
  | case3 =>
    intro h
    rfl

/-- Claim C10: automatic_model_search keeps the model path, resolves the
weights path from the configuration defaulting to the model path when no
weights entry is given, and the returned weights path is always the resolved
path with every '.xml' occurrence substituted by '.bin'; in particular a
resolved weights path not containing '.xml' is returned unchanged. -/
theorem claim_C10 (model : List Char) (weightsEntry : Option (List Char)) :
    (automatic_model_search model weightsEntry).1 = model ∧
    (automatic_model_search model weightsEntry).2 =
      replaceXmlBin (weightsEntry.getD model) ∧
    (weightsEntry = none →
      automatic_model_search model weightsEntry = automatic_model_search model (some model)) ∧
    (containsXml (weightsEntry.getD model) = false →
      (automatic_model_search model weightsEntry).2 = weightsEntry.getD model) := by
  refine ⟨rfl, ?_, ?_, ?_⟩
  · show (if containsXml (weightsEntry.getD model) then replaceXmlBin (weightsEntry.getD model)
      else weightsEntry.getD model) = replaceXmlBin (weightsEntry.getD model)
    cases hc : containsXml (weightsEntry.getD model) with
    | false => simp [replaceXmlBin_of_not_contains _ hc]
    | true => simp
  · rintro rfl
    rfl
  · intro hc
    show (if containsXml (weightsEntry.getD model) then replaceXmlBin (weightsEntry.getD model)
      else weightsEntry.getD model) = weightsEntry.getD model
    rw [hc]
    rfl

/-- Witness for claim C10 at the concrete paths net.xml (model) and
model.onnx (weights entry), plus the defaulting case with no weights entry. -/
theorem claim_C10_witness :
    (automatic_model_search ("net.xml".toList) (some ("model.onnx".toList))).1 =
      "net.xml".toList ∧
    (automatic_model_search ("net.xml".toList) (some ("model.onnx".toList))).2 =
      replaceXmlBin ((some ("model.onnx".toList)).getD ("net.xml".toList)) ∧
    containsXml ((some ("model.onnx".toList)).getD ("net.xml".toList)) = false ∧
    (automatic_model_search ("net.xml".toList) (some ("model.onnx".toList))).2 =
      (some ("model.onnx".toList)).getD ("net.xml".toList) ∧
    automatic_model_search ("net.xml".toList) none =
      automatic_model_search ("net.xml".toList) (some ("net.xml".toList)) :=
  ⟨(claim_C10 ("net.xml".toList) (some ("model.onnx".toList))).1,
   (claim_C10 ("net.xml".toList) (some ("model.onnx".toList))).2.1,
   by decide,
   (claim_C10 ("net.xml".toList) (some ("model.onnx".toList))).2.2.2 (by decide),
   (claim_C10 ("net.xml".toList) none).2.2.1 rfl⟩

theorem mem_indexPairs {h w : Nat} {p : Nat × Nat} :
    p ∈ indexPairs h w ↔ p.1 < h ∧ p.2 < w := by
  obtain ⟨i, j⟩ := p
  simp [indexPairs]

theorem scatterAux_none (src : Nat → Nat → Int) :
    ∀ (ps : List (Nat × Nat)) (t : Tensor4),
      (∃ p ∈ ps, (t.d1 : Int) ≤ src p.1 p.2 ∨ src p.1 p.2 < -(t.d1 : Int)) →
      scatterAux src ps t = none := by
  intro ps
  induction ps with
  | nil => intro t hex; simp at hex
  | cons q rest ih =>
    obtain ⟨i, j⟩ := q
    intro t hex
    obtain ⟨p, hp, hbad⟩ := hex
    rcases List.mem_cons.mp hp with rfl | hmem
    · rw [scatterAux, setOne_none_of_bad hbad]
    · cases hs : setOne t (src i j) i j with
      | none => rw [scatterAux, hs]
      | some t1 =>
        rw [scatterAux, hs]
        apply ih t1
        refine ⟨p, hmem, ?_⟩
        rwa [(setOne_dims hs).2.1]

theorem scatterAux_char (src : Nat → Nat → Int) :
    ∀ (ps : List (Nat × Nat)) (t : Tensor4),
      0 < t.d0 →
      (∀ p ∈ ps, 0 ≤ src p.1 p.2 ∧ src p.1 p.2 < (t.d1 : Int) ∧ p.1 < t.d2 ∧ p.2 < t.d3) →
      ∃ t1, scatterAux src ps t = some t1 ∧
        t1.d0 = t.d0 ∧ t1.d1 = t.d1 ∧ t1.d2 = t.d2 ∧ t1.d3 = t.d3 ∧
        ∀ a b c d, t1.data a b c d =
          if ∃ p ∈ ps, a = 0 ∧ b = (src p.1 p.2).toNat ∧ c = p.1 ∧ d = p.2 then 1
          else t.data a b c d := by
  intro ps
  induction ps with
  | nil =>
    intro t h0 hgood
    refine ⟨t, rfl, rfl, rfl, rfl, rfl, ?_⟩
    intro a b c d
    simp
  | cons q rest ih =>
    obtain ⟨i, j⟩ := q
    intro t h0 hgood
    obtain ⟨hv0, hv1, hi2, hj2⟩ := hgood (i, j) (List.mem_cons_self _ _)
    have hset := setOne_some (t := t) (v := src i j) (i := i) (j := j) h0 hv0 hv1 hi2 hj2
    obtain ⟨t2, hrec, hd0, hd1, hd2, hd3, hdata⟩ := ih
      { t with data := fun a b c d =>
          if a = 0 ∧ b = (src i j).toNat ∧ c = i ∧ d = j then 1 else t.data a b c d }
      h0 (fun p hp => hgood p (List.mem_cons_of_mem _ hp))
    refine ⟨t2, ?_, hd0, hd1, hd2, hd3, ?_⟩
    · rw [scatterAux, hset]
      exact hrec
    · intro a b c d
      rw [hdata a b c d]
      dsimp only
      by_cases hh : a = 0 ∧ b = (src i j).toNat ∧ c = i ∧ d = j
      · by_cases hr : ∃ p ∈ rest, a = 0 ∧ b = (src p.1 p.2).toNat ∧ c = p.1 ∧ d = p.2
        · rw [if_pos hr, if_pos ⟨(i, j), List.mem_cons_self _ _, hh⟩]
        · rw [if_neg hr, if_pos hh, if_pos ⟨(i, j), List.mem_cons_self _ _, hh⟩]
      · by_cases hr : ∃ p ∈ rest, a = 0 ∧ b = (src p.1 p.2).toNat ∧ c = p.1 ∧ d = p.2
        · obtain ⟨p, hp, hcp⟩ := hr
          rw [if_pos ⟨p, hp, hcp⟩, if_pos ⟨p, List.mem_cons_of_mem _ hp, hcp⟩]
        · rw [if_neg hr, if_neg hh, if_neg]
          intro hcon
          obtain ⟨p, hp, hcp⟩ := hcon
          rcases List.mem_cons.mp hp with rfl | hp2
          · exact hh hcp
          · exact hr ⟨p, hp2, hcp⟩

theorem scatter_char (g : Nat → Nat → Int)
    (hg : ∀ i < 256, ∀ j < 256, 0 ≤ g i j ∧ g i j < 151) :
    ∃ t1, scatter 256 256 g = some t1 ∧
      t1.d0 = 1 ∧ t1.d1 = 151 ∧ t1.d2 = 256 ∧ t1.d3 = 256 ∧
      ∀ (c i j : Nat), i < 256 → j < 256 →
        t1.data 0 c i j = if c = (g i j).toNat then 1 else 0 := by
  have hgood : ∀ p ∈ indexPairs 256 256,
      0 ≤ g p.1 p.2 ∧ g p.1 p.2 < (zeros4.d1 : Int) ∧ p.1 < zeros4.d2 ∧ p.2 < zeros4.d3 := by
    intro p hp
    obtain ⟨h1, h2⟩ := mem_indexPairs.mp hp
    obtain ⟨hv0, hv1⟩ := hg p.1 h1 p.2 h2
    refine ⟨hv0, ?_, ?_, ?_⟩
    · simpa [zeros4] using hv1
    · simpa [zeros4] using h1
    · simpa [zeros4] using h2
  obtain ⟨t1, hrun, hd0, hd1, hd2, hd3, hdata⟩ :=
    scatterAux_char g (indexPairs 256 256) zeros4 (by simp [zeros4]) hgood
  refine ⟨t1, hrun, by simpa [zeros4] using hd0, by simpa [zeros4] using hd1,
    by simpa [zeros4] using hd2, by simpa [zeros4] using hd3, ?_⟩
  intro c i j hi hj
  rw [hdata 0 c i j]
  have hcond : (∃ p ∈ indexPairs 256 256,
      (0 : Nat) = 0 ∧ c = (g p.1 p.2).toNat ∧ i = p.1 ∧ j = p.2) ↔ c = (g i j).toNat := by
    constructor
    · rintro ⟨p, hp, -, hc, rfl, rfl⟩
      exact hc
    · intro hc
      exact ⟨(i, j), mem_indexPairs.mpr ⟨hi, hj⟩, rfl, hc, rfl, rfl⟩
  by_cases hc : c = (g i j).toNat
  · rw [if_pos (hcond.mpr hc), if_pos hc]
  · rw [if_neg (fun hcon => hc (hcond.mp hcon)), if_neg hc]
    rfl

/-- Claim C1: for every 2-D integer label grid whose values all lie in
[0, 151), the mask preprocessing (nearest-neighbor resize, then scatter)
returns a tensor of fixed shape (1, 151, 256, 256) in which, at every
spatial position, the sum over the class axis equals exactly 1 and the index
of the single 1 equals the resized grid's label at that position. -/
theorem claim_C1 (h w : Nat) (src : Nat → Nat → Int)
    (hh : 0 < h) (hw : 0 < w)
    (hvals : ∀ i < h, ∀ j < w, 0 ≤ src i j ∧ src i j < 151) :
    ∃ t, preprocess_with_semantics h w src = some t ∧
      t.d0 = 1 ∧ t.d1 = 151 ∧ t.d2 = 256 ∧ t.d3 = 256 ∧
      ∀ i < 256, ∀ j < 256,
        (∑ c ∈ Finset.range 151, t.data 0 c i j) = 1 ∧
        ∀ c < 151, (t.data 0 c i j = 1 ↔ (c : Int) = resizeNearest h w src i j) := by
  have hres : ∀ i < 256, ∀ j < 256,
      0 ≤ resizeNearest h w src i j ∧ resizeNearest h w src i j < 151 := by
    intro i _ j _
    refine hvals _ ?_ _ ?_
    · have := Nat.min_le_right (i * h / 256) (h - 1)
      omega
    · have := Nat.min_le_right (j * w / 256) (w - 1)
      omega
  obtain ⟨t, hrun, hd0, hd1, hd2, hd3, hdata⟩ := scatter_char (resizeNearest h w src) hres
  refine ⟨t, hrun, hd0, hd1, hd2, hd3, ?_⟩
  intro i hi j hj
  obtain ⟨hv0, hv1⟩ := hres i hi j hj
  have hK : (resizeNearest h w src i j).toNat < 151 := by omega
  constructor
  · have hsum : (∑ c ∈ Finset.range 151, t.data 0 c i j) =
        ∑ c ∈ Finset.range 151,
          if c = (resizeNearest h w src i j).toNat then (1 : Int) else 0 :=
      Finset.sum_congr rfl (fun c _ => hdata c i j hi hj)
    rw [hsum, Finset.sum_ite_eq' (Finset.range 151) _ (fun _ => (1 : Int)),
      if_pos (Finset.mem_range.mpr hK)]
  · intro c hc
    rw [hdata c i j hi hj]
    by_cases hcK : c = (resizeNearest h w src i j).toNat
    · rw [if_pos hcK]
      subst hcK
      constructor
      · intro _
        omega
      · intro _
        rfl
    · rw [if_neg hcK]
      constructor
      · intro h01
        exact absurd h01 (by norm_num)
      · intro hcast
        exfalso
        apply hcK
        omega

/-- Witness for claim C1 on the concrete all-zero 1-by-1 label grid. -/
theorem claim_C1_witness :
    (0 : Nat) < 1 ∧
    (∀ i < 1, ∀ j < 1,
      0 ≤ (fun _ _ => (0 : Int)) i j ∧ (fun _ _ => (0 : Int)) i j < 151) ∧
    (∃ t, preprocess_with_semantics 1 1 (fun _ _ => 0) = some t ∧
      t.d0 = 1 ∧ t.d1 = 151 ∧ t.d2 = 256 ∧ t.d3 = 256 ∧
      ∀ i < 256, ∀ j < 256,
        (∑ c ∈ Finset.range 151, t.data 0 c i j) = 1 ∧
        ∀ c < 151,
          (t.data 0 c i j = 1 ↔ (c : Int) = resizeNearest 1 1 (fun _ _ => 0) i j)) :=
  ⟨Nat.one_pos,
   fun i _ j _ => ⟨le_refl 0, by norm_num⟩,
   claim_C1 1 1 (fun _ _ => 0) Nat.one_pos Nat.one_pos
     (fun i _ j _ => ⟨le_refl 0, by norm_num⟩)⟩

/-- Claim C5 (amended): for every label grid containing a value at or above
151, or below -151, at an in-range position, the scatter step fails loudly
with an index-out-of-bounds error; a value in [-151, 0) does not fail, since
numpy negative indexing silently wraps it to channel 151 + value. -/
theorem claim_C5 (h w : Nat) (src : Nat → Nat → Int)
    (hbad : ∃ i, i < h ∧ ∃ j, j < w ∧ (151 ≤ src i j ∨ src i j < -151)) :
    scatter h w src = none := by
  obtain ⟨i, hi, j, hj, hbadv⟩ := hbad
  apply scatterAux_none
  refine ⟨(i, j), mem_indexPairs.mpr ⟨hi, hj⟩, ?_⟩
  simpa [zeros4] using hbadv

/-- Counterexample to claim C5 as stated: the label -1 lies outside
[0, 151), yet scatter on the 1-by-1 grid [[-1]] does not fail: numpy
negative indexing wraps it and silently sets channel 150. -/
theorem claim_C5_counterexample :
    ((-1 : Int) < 0 ∨ 151 ≤ (-1 : Int)) ∧
    (scatter 1 1 (fun _ _ => -1)).map (fun t => t.data 0 150 0 0) = some 1 :=
  ⟨Or.inl (by norm_num), rfl⟩

/-- Witness for claim C5 on the concrete 1-by-1 grid [[151]]. -/
theorem claim_C5_witness :
    (∃ i, i < 1 ∧ ∃ j, j < 1 ∧
      (151 ≤ (fun _ _ => (151 : Int)) i j ∨ (fun _ _ => (151 : Int)) i j < -151)) ∧
    scatter 1 1 (fun _ _ => 151) = none :=
  ⟨⟨0, Nat.one_pos, 0, Nat.one_pos, Or.inl (by norm_num)⟩,
   claim_C5 1 1 (fun _ _ => 151) ⟨0, Nat.one_pos, 0, Nat.one_pos, Or.inl (by norm_num)⟩⟩
